import Mathlib

/-!
Verification of the transaction coordination core of glycerine/server:
the Paxos acceptor state machine (paxos package, acceptor source file),
the SimpleTxnSubmitter (client/simpletxnsubmitter.go) and the
Executor/Dispatcher (dispatcher/executiondispatcher.go), shallowly
embedded in Lean.
-/

namespace GServer

/-! ## Basic data model -/

/-- Replica identifier (`common.RMId`, an unsigned integer). -/
abbrev RMId := Nat

/-- Abort sub-variant of an outcome: `Resubmit` carries no update
payloads; `Rerun` carries them (modelled as an opaque list). -/
inductive AbortVariant
  | resubmit
  | rerun (updates : List Nat)
deriving DecidableEq, Repr

/-- Wire `Outcome`: `Commit` or `Abort` (msgs.OUTCOME_COMMIT / OUTCOME_ABORT). -/
inductive Outcome
  | commit
  | abort (v : AbortVariant)
deriving DecidableEq, Repr

def Outcome.isCommit : Outcome → Bool
  | .commit => true
  | .abort _ => false

def Outcome.isAbort : Outcome → Bool
  | .commit => false
  | .abort _ => true

/-- An outcome object held by reference in the Go code
(`*outcomeEqualId`).  `tok` models pointer identity: two references are
the same Go pointer exactly when the `OutcomeRef`s are equal (each newly
accepted outcome gets a fresh token), while `outcomeEqualId.Equal`
compares only the `val` component. -/
structure OutcomeRef where
  tok : Nat
  val : Outcome
deriving DecidableEq, Repr

def isCommitO : Option OutcomeRef → Bool
  | some r => r.val.isCommit
  | none => false

def isAbortO : Option OutcomeRef → Bool
  | some r => r.val.isAbort
  | none => false

/-- One entry of a server transaction's Allocations list: the replica and
its `Active` field, which is the submitter's last-observed boot count
(nonzero) for an active replica and `0` for a passive one. -/
structure Alloc where
  rmId : RMId
  active : Nat
deriving DecidableEq, Repr

/-! ## 2B retransmitting sender (`newTwoBTxnVotesSender`) -/

/-- The pre-encoded messages of a `twoBTxnVotesSender`: we record the
outcome payload each encoded message carries rather than the bytes. -/
structure TwoBTxnVotesSender where
  msg : Outcome
  recipients : List RMId
  submitterMsg : Outcome
  submitter : RMId
deriving DecidableEq, Repr

/-- `newTwoBTxnVotesSender`, following the source order of operations:
`SetSubmissionOutcome(*outcome)` deep-copies the outcome into the fresh
submitter segment; afterwards, if the outcome is an abort,
`outcome.Abort().SetResubmit()` rewrites the original outcome object in
place; finally `twoB.SetOutcome(*outcome)` copies the (now possibly
rewritten) outcome into the 2B segment. -/
def newTwoBTxnVotesSender (outcome : Outcome) (submitter : RMId)
    (recipients : List RMId) : TwoBTxnVotesSender :=
  let submitterPayload := outcome
  let outcomeAfterRewrite : Outcome :=
    match outcome with
    | .abort _ => .abort .resubmit
    | o => o
  { msg := outcomeAfterRewrite
    recipients := recipients
    submitterMsg := submitterPayload
    submitter := submitter }

/-! ## Acceptor state machine -/

/-- The four state-machine components of an `Acceptor`
(`acceptorStateMachineComponent`). -/
inductive AState
  | receiveBallots
  | writeToDisk
  | awaitLocallyComplete
  | deleteFromDisk
deriving DecidableEq, Repr

/-- The mutable state of one `Acceptor`, flattening the four embedded
state-component structs.  `currentState = none` both before `Start` and
after the terminal transition out of `deleteFromDisk`.  `gen` supplies
fresh tokens for newly accepted outcome objects.  `allocs` and
`submitter` are the allocation list and submitter of
`ballotAccumulator.Txn`. -/
structure AcceptorState where
  currentState : Option AState
  outcome : Option OutcomeRef
  outcomeOnDisk : Option OutcomeRef
  sendToAll : Bool
  sendToAllOnDisk : Bool
  pendingTLC : List RMId
  tlcsReceived : List RMId
  tgcRecipients : List RMId
  tscReceived : Bool
  twoBSender : Option TwoBTxnVotesSender
  allocs : List Alloc
  submitter : RMId
  gen : Nat
deriving DecidableEq, Repr

/-- `NewAcceptor` followed by nothing else: all fields zeroed, state not
yet started. -/
def newAcceptor (allocs : List Alloc) (submitter : RMId) : AcceptorState :=
  { currentState := none
    outcome := none
    outcomeOnDisk := none
    sendToAll := false
    sendToAllOnDisk := false
    pendingTLC := []
    tlcsReceived := []
    tgcRecipients := []
    tscReceived := false
    twoBSender := none
    allocs := allocs
    submitter := submitter
    gen := 1 }

/-- `AcceptorFromData`: reconstruction from the durable record.  The
in-memory `outcome` and `outcomeOnDisk` are the same Go pointer, hence
the same token. -/
def acceptorFromData (allocs : List Alloc) (submitter : RMId)
    (outcome : Outcome) (sendToAll : Bool) : AcceptorState :=
  { newAcceptor allocs submitter with
    outcome := some ⟨0, outcome⟩
    outcomeOnDisk := some ⟨0, outcome⟩
    sendToAll := sendToAll
    sendToAllOnDisk := sendToAll }

/-- `acceptorWriteToDisk.start`: `sendToAll = sendToAll || outcome is
Commit`, then the serialized state is scheduled for writing (the write's
completion is a separate `writeDone` event). -/
def awtdStart (s : AcceptorState) : AcceptorState :=
  { s with sendToAll := s.sendToAll || isCommitO s.outcome }

/-- The local `twoBRecipients` slice built by
`acceptorAwaitLocallyComplete.start`: every allocation replica when
`sendToAllOnDisk`, otherwise only the active ones. -/
def twoBRecipientsOf (s : AcceptorState) : List RMId :=
  (s.allocs.filter (fun al => s.sendToAllOnDisk || al.active ≠ 0)).map Alloc.rmId

/-- The `pendingTLC` key set built by `acceptorAwaitLocallyComplete.start`:
2B recipients from which no TLC has been received yet. -/
def pendingTLCOf (s : AcceptorState) : List RMId :=
  (twoBRecipientsOf s).filter (fun r => r ∉ s.tlcsReceived)

/-- The `tgcRecipients` slice built by
`acceptorAwaitLocallyComplete.start`: every allocation replica unless the
durable outcome is an abort, in which case only the active ones
(`!aborted || active`). -/
def tgcRecipientsOf (s : AcceptorState) : List RMId :=
  (s.allocs.filter (fun al => !(isAbortO s.outcomeOnDisk) || al.active ≠ 0)).map Alloc.rmId

/-- `acceptorDeleteFromDisk.start`: deregister any 2B sender and schedule
the durable delete (its completion is the `deletionDone` event). -/
def adfdStart (s : AcceptorState) : AcceptorState :=
  { s with twoBSender := none }

/-- `acceptorAwaitLocallyComplete.maybeDelete`: advance to
`deleteFromDisk` when still in `awaitLocallyComplete` with `tscReceived`
set and `pendingTLC` empty. -/
def maybeDelete (s : AcceptorState) : AcceptorState :=
  if s.currentState = some .awaitLocallyComplete ∧ s.tscReceived ∧ s.pendingTLC = [] then
    adfdStart { s with currentState := some .deleteFromDisk }
  else s

/-- `acceptorAwaitLocallyComplete.start`: deregister any previous 2B
sender, rebuild `pendingTLC` and `tgcRecipients` from the allocations,
then either delete immediately (via `maybeDelete`) or install a fresh 2B
sender for the durable outcome.  (The Go code dereferences
`outcomeOnDisk` when building the sender; the `none` branch is
unreachable on any path that enters this state.) -/
def aalcStart (s : AcceptorState) : AcceptorState :=
  if pendingTLCOf s = [] ∧ s.tscReceived then
    maybeDelete { s with
      twoBSender := none
      pendingTLC := pendingTLCOf s
      tgcRecipients := tgcRecipientsOf s }
  else
    match s.outcomeOnDisk with
    | some r =>
        { s with
          twoBSender := some (newTwoBTxnVotesSender r.val s.submitter (twoBRecipientsOf s))
          pendingTLC := pendingTLCOf s
          tgcRecipients := tgcRecipientsOf s }
    | none =>
        { s with
          twoBSender := none
          pendingTLC := pendingTLCOf s
          tgcRecipients := tgcRecipientsOf s }

/-- `Acceptor.Start`: pick the initial state component
(`receiveBallots` when nothing is on disk, `awaitLocallyComplete`
otherwise) and run its `start`.  (`acceptorReceiveBallots.start` is a
no-op.) -/
def startA (s : AcceptorState) : AcceptorState :=
  match s.currentState with
  | some _ => s
  | none =>
      match s.outcomeOnDisk with
      | none => { s with currentState := some .receiveBallots }
      | some _ => aalcStart { s with currentState := some .awaitLocallyComplete }

/-- Events posted to the acceptor on its owning Executor.
`ballotAccepted o?` carries the outcome returned by
`ballotAccumulator.BallotReceived` (`none` when the accumulator has not
yet determined one); `writeDone r sta` is the completion of a disk write
whose closure captured outcome object `r` and flag `sta`; `tlcReceived`,
`tscReceivedEvt` and `deletionDone` are the remaining handlers. -/
inductive AEvent
  | ballotAccepted (o : Option Outcome)
  | writeDone (r : OutcomeRef) (sta : Bool)
  | tlcReceived (sender : RMId)
  | tscReceivedEvt
  | deletionDone
deriving DecidableEq, Repr

/-- Whether `acceptorReceiveBallots.BallotAccepted` logs the
"received ballot ... after all TLCs received" error: exactly when the
current state is `deleteFromDisk`. -/
def ballotLogsError (s : AcceptorState) : Bool :=
  s.currentState = some .deleteFromDisk

/-- One step of the acceptor: the handler bodies from the source.

- `BallotAccepted`: (after possibly logging the delete-state error) ask
  the accumulator; if it returns an outcome not `Equal` to the current
  one, store it as a fresh object and `nextState(&writeToDisk)`.
- `writeDone`: guarded by `outcome == outcome-written && currentState ==
  writeToDisk` (Go pointer equality, i.e. `OutcomeRef` equality); on
  success set the on-disk shadows and `nextState(nil)` into
  `awaitLocallyComplete`.
- `TxnLocallyCompleteReceived`: always record the sender in
  `tlcsReceived`; when in `awaitLocallyComplete` also delete it from
  `pendingTLC` and try `maybeDelete`.
- `TxnSubmissionCompleteReceived`: first TSC sets `tscReceived` and tries
  `maybeDelete`.
- `deletionDone`: when still in `deleteFromDisk`, `nextState(nil)`
  terminates the machine (and the TGC one-shot is dispatched to
  `tgcRecipients`). -/
def astep (s : AcceptorState) : AEvent → AcceptorState
  | .ballotAccepted o? =>
      match o? with
      | none => s
      | some o =>
          if (s.outcome.map OutcomeRef.val) = some o then s
          else
            awtdStart { s with
              outcome := some ⟨s.gen, o⟩
              gen := s.gen + 1
              currentState := some .writeToDisk }
  | .writeDone r sta =>
      if s.outcome = some r ∧ s.currentState = some .writeToDisk then
        aalcStart { s with
          outcomeOnDisk := some r
          sendToAllOnDisk := sta
          currentState := some .awaitLocallyComplete }
      else s
  | .tlcReceived sender =>
      let s := { s with
        tlcsReceived :=
          if sender ∈ s.tlcsReceived then s.tlcsReceived else sender :: s.tlcsReceived }
      if s.currentState = some .awaitLocallyComplete then
        maybeDelete { s with pendingTLC := s.pendingTLC.filter (· ≠ sender) }
      else s
  | .tscReceivedEvt =>
      if s.tscReceived then s else maybeDelete { s with tscReceived := true }
  | .deletionDone =>
      if s.currentState = some .deleteFromDisk then
        { s with currentState := none }
      else s

/-- Run a sequence of events. -/
def runA (s : AcceptorState) (evs : List AEvent) : AcceptorState :=
  evs.foldl astep s

end GServer

namespace GServer

/-! ## Field-preservation lemmas for the `start` helpers -/

theorem maybeDelete_outcome (s : AcceptorState) : (maybeDelete s).outcome = s.outcome := by
  unfold maybeDelete adfdStart; split <;> rfl

theorem maybeDelete_outcomeOnDisk (s : AcceptorState) :
    (maybeDelete s).outcomeOnDisk = s.outcomeOnDisk := by
  unfold maybeDelete adfdStart; split <;> rfl

theorem maybeDelete_pendingTLC (s : AcceptorState) :
    (maybeDelete s).pendingTLC = s.pendingTLC := by
  unfold maybeDelete adfdStart; split <;> rfl

theorem maybeDelete_tlcsReceived (s : AcceptorState) :
    (maybeDelete s).tlcsReceived = s.tlcsReceived := by
  unfold maybeDelete adfdStart; split <;> rfl

theorem maybeDelete_tscReceived (s : AcceptorState) :
    (maybeDelete s).tscReceived = s.tscReceived := by
  unfold maybeDelete adfdStart; split <;> rfl

theorem maybeDelete_sendToAll (s : AcceptorState) :
    (maybeDelete s).sendToAll = s.sendToAll := by
  unfold maybeDelete adfdStart; split <;> rfl

theorem maybeDelete_sendToAllOnDisk (s : AcceptorState) :
    (maybeDelete s).sendToAllOnDisk = s.sendToAllOnDisk := by
  unfold maybeDelete adfdStart; split <;> rfl

theorem maybeDelete_allocs (s : AcceptorState) : (maybeDelete s).allocs = s.allocs := by
  unfold maybeDelete adfdStart; split <;> rfl

/-- `maybeDelete` either does nothing or moves an `awaitLocallyComplete`
state with `tscReceived` set and no pending TLCs into `deleteFromDisk`. -/
theorem maybeDelete_currentState (s : AcceptorState) :
    maybeDelete s = s
    ∨ ((maybeDelete s).currentState = some .deleteFromDisk
        ∧ s.currentState = some .awaitLocallyComplete
        ∧ s.tscReceived = true ∧ s.pendingTLC = []) := by
  unfold maybeDelete adfdStart
  split
  · rename_i h
    exact Or.inr ⟨rfl, h.1, h.2.1, h.2.2⟩
  · exact Or.inl rfl

theorem aalcStart_outcome (s : AcceptorState) : (aalcStart s).outcome = s.outcome := by
  unfold aalcStart
  split
  · rw [maybeDelete_outcome]
  · split <;> rfl

theorem aalcStart_outcomeOnDisk (s : AcceptorState) :
    (aalcStart s).outcomeOnDisk = s.outcomeOnDisk := by
  unfold aalcStart
  split
  · rw [maybeDelete_outcomeOnDisk]
  · split <;> rfl

theorem aalcStart_pendingTLC (s : AcceptorState) :
    (aalcStart s).pendingTLC = pendingTLCOf s := by
  unfold aalcStart
  split
  · rw [maybeDelete_pendingTLC]
  · split <;> rfl

theorem aalcStart_tgcRecipients (s : AcceptorState) :
    (aalcStart s).tgcRecipients = tgcRecipientsOf s := by
  unfold aalcStart
  split
  · rw [show ∀ t : AcceptorState, (maybeDelete t).tgcRecipients = t.tgcRecipients from
      fun t => by unfold maybeDelete adfdStart; split <;> rfl]
  · split <;> rfl

theorem aalcStart_tlcsReceived (s : AcceptorState) :
    (aalcStart s).tlcsReceived = s.tlcsReceived := by
  unfold aalcStart
  split
  · rw [maybeDelete_tlcsReceived]
  · split <;> rfl

theorem aalcStart_tscReceived (s : AcceptorState) :
    (aalcStart s).tscReceived = s.tscReceived := by
  unfold aalcStart
  split
  · rw [maybeDelete_tscReceived]
  · split <;> rfl

theorem aalcStart_sendToAll (s : AcceptorState) :
    (aalcStart s).sendToAll = s.sendToAll := by
  unfold aalcStart
  split
  · rw [maybeDelete_sendToAll]
  · split <;> rfl

theorem aalcStart_sendToAllOnDisk (s : AcceptorState) :
    (aalcStart s).sendToAllOnDisk = s.sendToAllOnDisk := by
  unfold aalcStart
  split
  · rw [maybeDelete_sendToAllOnDisk]
  · split <;> rfl

theorem aalcStart_allocs (s : AcceptorState) : (aalcStart s).allocs = s.allocs := by
  unfold aalcStart
  split
  · rw [maybeDelete_allocs]
  · split <;> rfl

/-- Entering `awaitLocallyComplete` either leaves the current state alone
or proceeds straight to `deleteFromDisk`, and then only with
`tscReceived` set and an empty rebuilt `pendingTLC`. -/
theorem aalcStart_currentState (s : AcceptorState) :
    (aalcStart s).currentState = s.currentState
    ∨ ((aalcStart s).currentState = some .deleteFromDisk
        ∧ s.tscReceived = true ∧ (aalcStart s).pendingTLC = []) := by
  unfold aalcStart
  split
  · rename_i hg
    rcases maybeDelete_currentState
        { s with twoBSender := none, pendingTLC := pendingTLCOf s,
                 tgcRecipients := tgcRecipientsOf s } with h | h
    · rw [h]; exact Or.inl rfl
    · exact Or.inr ⟨h.1, h.2.2.1, by rw [maybeDelete_pendingTLC]; exact hg.1⟩
  · split <;> exact Or.inl rfl

end GServer

namespace GServer

/-! ## Reachability and the await-locally-complete invariant -/

/-- In `awaitLocallyComplete` the durable outcome reference and the
in-memory outcome reference agree (the transition into the state copies
the guarded write snapshot, and `AcceptorFromData` aliases the two). -/
def AccInv (s : AcceptorState) : Prop :=
  s.currentState = some .awaitLocallyComplete → s.outcomeOnDisk = s.outcome

theorem maybeDelete_inv (s : AcceptorState) (h : AccInv s) : AccInv (maybeDelete s) := by
  rcases maybeDelete_currentState s with heq | ⟨hc, _⟩
  · rw [heq]; exact h
  · intro hcc
    rw [maybeDelete_outcomeOnDisk, maybeDelete_outcome]
    rw [hc] at hcc
    cases hcc

theorem aalcStart_inv (s : AcceptorState) (h : s.outcomeOnDisk = s.outcome) :
    AccInv (aalcStart s) := by
  intro _
  rw [aalcStart_outcomeOnDisk, aalcStart_outcome]
  exact h

theorem astep_inv (s : AcceptorState) (e : AEvent) (h : AccInv s) : AccInv (astep s e) := by
  cases e with
  | ballotAccepted o? =>
      cases o? with
      | none => exact h
      | some o =>
          simp only [astep]
          split
          · exact h
          · intro hc
            cases hc
  | writeDone r sta =>
      simp only [astep]
      split
      · rename_i hg
        exact aalcStart_inv _ (by show some r = s.outcome; exact hg.1.symm)
      · exact h
  | tlcReceived sender =>
      simp only [astep]
      split
      · rename_i hc
        apply maybeDelete_inv
        intro _
        exact h hc
      · intro hc
        exact h hc
  | tscReceivedEvt =>
      simp only [astep]
      split
      · exact h
      · apply maybeDelete_inv
        intro hc
        exact h hc
  | deletionDone =>
      simp only [astep]
      split
      · intro hc; cases hc
      · exact h

theorem startA_newAcceptor_inv (allocs : List Alloc) (sub : RMId) :
    AccInv (startA (newAcceptor allocs sub)) := by
  intro hc
  simp [startA, newAcceptor] at hc

theorem startA_fromData_inv (allocs : List Alloc) (sub : RMId) (o : Outcome) (b : Bool) :
    AccInv (startA (acceptorFromData allocs sub o b)) := by
  apply aalcStart_inv
  rfl

/-- The states an acceptor can be in: started fresh on a first ballot
(`NewAcceptor` + `Start`), reconstructed from disk
(`AcceptorFromData` + `Start`), or reached from either by handler
events. -/
inductive AccReachable : AcceptorState → Prop
  | fresh (allocs : List Alloc) (sub : RMId) : AccReachable (startA (newAcceptor allocs sub))
  | fromData (allocs : List Alloc) (sub : RMId) (o : Outcome) (b : Bool) :
      AccReachable (startA (acceptorFromData allocs sub o b))
  | step (s : AcceptorState) (e : AEvent) : AccReachable s → AccReachable (astep s e)

theorem reachable_inv (s : AcceptorState) (h : AccReachable s) : AccInv s := by
  induction h with
  | fresh allocs sub => exact startA_newAcceptor_inv allocs sub
  | fromData allocs sub o b => exact startA_fromData_inv allocs sub o b
  | step t e _ ih => exact astep_inv t e ih

/-- Claim C1: on every reachable path, the transition into the
DeleteFromDisk state happens only when `pendingTLC` is empty,
`tscReceived` is true, and the on-disk outcome equals the in-memory
outcome — whether it is taken by `maybeDelete` after a TLC or a TSC, or
directly on entering AwaitLocallyComplete after a disk write. -/
theorem c1_deleteFromDisk_entry (s : AcceptorState) (e : AEvent)
    (hr : AccReachable s)
    (hpost : (astep s e).currentState = some .deleteFromDisk)
    (hpre : s.currentState ≠ some .deleteFromDisk) :
    (astep s e).pendingTLC = [] ∧ (astep s e).tscReceived = true
    ∧ (astep s e).outcomeOnDisk = (astep s e).outcome := by
  have hinv := reachable_inv s hr
  cases e with
  | ballotAccepted o? =>
      cases o? with
      | none => exact absurd hpost hpre
      | some o =>
          by_cases he : (s.outcome.map OutcomeRef.val) = some o
          · have hs : astep s (.ballotAccepted (some o)) = s := by
              simp [astep, he]
            rw [hs] at hpost; exact absurd hpost hpre
          · have hs : (astep s (.ballotAccepted (some o))).currentState
                = some .writeToDisk := by
              simp [astep, he, awtdStart]
            rw [hs] at hpost; cases hpost
  | writeDone r sta =>
      by_cases hg : s.outcome = some r ∧ s.currentState = some .writeToDisk
      · have hs : astep s (.writeDone r sta)
            = aalcStart { s with outcomeOnDisk := some r, sendToAllOnDisk := sta,
                                 currentState := some .awaitLocallyComplete } := by
          simp [astep, hg]
        rw [hs] at hpost ⊢
        rcases aalcStart_currentState
            { s with outcomeOnDisk := some r, sendToAllOnDisk := sta,
                     currentState := some .awaitLocallyComplete } with hc | ⟨_, htsc, hpend⟩
        · rw [hc] at hpost; cases hpost
        · refine ⟨hpend, ?_, ?_⟩
          · rw [aalcStart_tscReceived]; exact htsc
          · rw [aalcStart_outcomeOnDisk, aalcStart_outcome]
            show some r = s.outcome
            exact hg.1.symm
      · have hs : astep s (.writeDone r sta) = s := by
          simp only [astep]
          rw [if_neg hg]
        rw [hs] at hpost; exact absurd hpost hpre
  | tlcReceived sender =>
      by_cases hc : s.currentState = some .awaitLocallyComplete
      · have hs : astep s (.tlcReceived sender)
            = maybeDelete { s with
                tlcsReceived :=
                  if sender ∈ s.tlcsReceived then s.tlcsReceived else sender :: s.tlcsReceived,
                pendingTLC := s.pendingTLC.filter (· ≠ sender) } := by
          simp [astep, hc]
        rw [hs] at hpost ⊢
        rcases maybeDelete_currentState
            { s with
              tlcsReceived :=
                if sender ∈ s.tlcsReceived then s.tlcsReceived else sender :: s.tlcsReceived,
              pendingTLC := s.pendingTLC.filter (· ≠ sender) } with heq | ⟨_, _, htsc, hpend⟩
        · rw [heq] at hpost; exact absurd hpost hpre
        · refine ⟨?_, ?_, ?_⟩
          · rw [maybeDelete_pendingTLC]; exact hpend
          · rw [maybeDelete_tscReceived]; exact htsc
          · rw [maybeDelete_outcomeOnDisk, maybeDelete_outcome]
            exact hinv hc
      · have hs : astep s (.tlcReceived sender)
            = { s with
                tlcsReceived :=
                  if sender ∈ s.tlcsReceived then s.tlcsReceived else sender :: s.tlcsReceived } := by
          simp [astep, hc]
        rw [hs] at hpost; exact absurd hpost hpre
  | tscReceivedEvt =>
      by_cases ht : s.tscReceived = true
      · have hs : astep s .tscReceivedEvt = s := by
          simp [astep, ht]
        rw [hs] at hpost; exact absurd hpost hpre
      · have hs : astep s .tscReceivedEvt = maybeDelete { s with tscReceived := true } := by
          simp [astep, ht]
        rw [hs] at hpost ⊢
        rcases maybeDelete_currentState { s with tscReceived := true } with heq | ⟨_, hcs, _, hpend⟩
        · rw [heq] at hpost; exact absurd hpost hpre
        · refine ⟨?_, ?_, ?_⟩
          · rw [maybeDelete_pendingTLC]; exact hpend
          · rw [maybeDelete_tscReceived]
          · rw [maybeDelete_outcomeOnDisk, maybeDelete_outcome]
            exact hinv hcs
  | deletionDone =>
      by_cases hd : s.currentState = some .deleteFromDisk
      · exact absurd hd hpre
      · have hs : astep s .deletionDone = s := by
          simp [astep, hd]
        rw [hs] at hpost; exact absurd hpost hpre

/-- A reachable acceptor, reconstructed from a durable Commit, that has
received the single pending TLC: the next TSC takes it into
DeleteFromDisk. -/
def c1wState : AcceptorState :=
  astep (startA (acceptorFromData [⟨1, 7⟩] 0 .commit true)) (.tlcReceived 1)

/-- Claim C1 witness: the entry guard evaluated on a concrete transition
into DeleteFromDisk. -/
theorem c1_deleteFromDisk_entry_witness :
    (astep c1wState .tscReceivedEvt).pendingTLC = []
    ∧ (astep c1wState .tscReceivedEvt).tscReceived = true
    ∧ (astep c1wState .tscReceivedEvt).outcomeOnDisk = (astep c1wState .tscReceivedEvt).outcome :=
  c1_deleteFromDisk_entry c1wState .tscReceivedEvt
    (AccReachable.step _ _ (AccReachable.fromData [⟨1, 7⟩] 0 .commit true))
    (by decide) (by decide)

end GServer
namespace GServer

def c2state : AcceptorState :=
  astep (astep (startA (acceptorFromData [⟨1, 7⟩] 0 .commit true)) (.tlcReceived 1))
    .tscReceivedEvt

/-- Claim C2 counterexample: a reachable acceptor in DeleteFromDisk that
receives a ballot whose accumulated outcome differs from the current one
is not left unchanged — it re-enters WriteToDisk. -/
theorem c2_ballot_in_deleteFromDisk_cex :
    AccReachable c2state
    ∧ c2state.currentState = some .deleteFromDisk
    ∧ astep c2state (.ballotAccepted (some (.abort .resubmit))) ≠ c2state
    ∧ (astep c2state (.ballotAccepted (some (.abort .resubmit)))).currentState
        = some .writeToDisk :=
  ⟨AccReachable.step _ _ (AccReachable.step _ _ (AccReachable.fromData [⟨1, 7⟩] 0 .commit true)),
   by decide, by decide, by decide⟩

/-- Claim C2 (amended): a ballot received in DeleteFromDisk is logged as
an error, but is still processed exactly like any other ballot: if the
accumulator returns no outcome, or an outcome equal to the current one,
nothing changes; if it returns a different outcome the acceptor stores
it and re-enters WriteToDisk. -/
theorem c2_ballot_in_deleteFromDisk_amended (s : AcceptorState) (o? : Option Outcome)
    (h : s.currentState = some .deleteFromDisk) :
    ballotLogsError s = true
    ∧ ((o? = none ∨ s.outcome.map OutcomeRef.val = o?) → astep s (.ballotAccepted o?) = s)
    ∧ (∀ o, o? = some o → s.outcome.map OutcomeRef.val ≠ some o →
        (astep s (.ballotAccepted o?)).currentState = some .writeToDisk) := by
  refine ⟨by simp [ballotLogsError, h], ?_, ?_⟩
  · rintro (rfl | he)
    · rfl
    · cases o? with
      | none => rfl
      | some o => simp [astep, he]
  · rintro o rfl he
    simp [astep, he, awtdStart]

/-- Claim C2 (amended) witness: the amended behaviour evaluated at the
counterexample state. -/
theorem c2_ballot_in_deleteFromDisk_amended_witness :
    ballotLogsError c2state = true
    ∧ ((some (Outcome.abort .resubmit) = none
          ∨ c2state.outcome.map OutcomeRef.val = some (Outcome.abort .resubmit))
        → astep c2state (.ballotAccepted (some (.abort .resubmit))) = c2state)
    ∧ (∀ o, some (Outcome.abort .resubmit) = some o
        → c2state.outcome.map OutcomeRef.val ≠ some o
        → (astep c2state (.ballotAccepted (some (.abort .resubmit)))).currentState
            = some .writeToDisk) :=
  c2_ballot_in_deleteFromDisk_amended c2state (some (.abort .resubmit)) (by decide)

end GServer

namespace GServer

theorem Outcome.not_isAbort (x : Outcome) : (!x.isAbort) = x.isCommit := by
  cases x <;> rfl

/-- Claim C3 counterexample. -/
theorem c3_abort_rewrite_cex :
    (newTwoBTxnVotesSender (.abort (.rerun [5])) 0 [1, 2]).submitterMsg
        = Outcome.abort (.rerun [5])
    ∧ (newTwoBTxnVotesSender (.abort (.rerun [5])) 0 [1, 2]).submitterMsg
        ≠ Outcome.abort .resubmit
    ∧ (newTwoBTxnVotesSender (.abort (.rerun [5])) 0 [1, 2]).msg = Outcome.abort .resubmit
    ∧ (newTwoBTxnVotesSender (.abort (.rerun [5])) 0 [1, 2]).msg
        ≠ Outcome.abort (.rerun [5]) :=
  ⟨by decide, by decide, by decide, by decide⟩

/-- Claim C3 (amended). -/
theorem c3_abort_rewrite_amended (v : AbortVariant) (sub : RMId) (recips : List RMId) :
    newTwoBTxnVotesSender (.abort v) sub recips
      = { msg := .abort .resubmit
          recipients := recips
          submitterMsg := .abort v
          submitter := sub } := rfl

/-- Claim C4. -/
theorem c4_writeDone_guard (s : AcceptorState) (r : OutcomeRef) (sta : Bool) :
    (s.outcome = some r ∧ s.currentState = some .writeToDisk →
      astep s (.writeDone r sta)
        = aalcStart { s with outcomeOnDisk := some r, sendToAllOnDisk := sta,
                             currentState := some .awaitLocallyComplete }
      ∧ (astep s (.writeDone r sta)).outcomeOnDisk = some r
      ∧ (astep s (.writeDone r sta)).sendToAllOnDisk = sta)
    ∧ (¬(s.outcome = some r ∧ s.currentState = some .writeToDisk) →
      astep s (.writeDone r sta) = s) := by
  constructor
  · intro hg
    have hs : astep s (.writeDone r sta)
        = aalcStart { s with outcomeOnDisk := some r, sendToAllOnDisk := sta,
                             currentState := some .awaitLocallyComplete } := by
      simp [astep, hg]
    refine ⟨hs, ?_, ?_⟩
    · rw [hs, aalcStart_outcomeOnDisk]
    · rw [hs, aalcStart_sendToAllOnDisk]
  · intro hg
    simp only [astep]
    rw [if_neg hg]

def c4state : AcceptorState :=
  astep (startA (newAcceptor [⟨1, 7⟩] 0)) (.ballotAccepted (some .commit))

/-- Claim C4 witness. -/
theorem c4_writeDone_guard_witness :
    astep c4state (.writeDone ⟨1, .commit⟩ true)
      = aalcStart { c4state with outcomeOnDisk := some ⟨1, .commit⟩, sendToAllOnDisk := true,
                                 currentState := some .awaitLocallyComplete }
    ∧ (astep c4state (.writeDone ⟨1, .commit⟩ true)).outcomeOnDisk = some ⟨1, .commit⟩
    ∧ (astep c4state (.writeDone ⟨1, .commit⟩ true)).sendToAllOnDisk = true :=
  (c4_writeDone_guard c4state ⟨1, .commit⟩ true).1 (by decide)

/-- Claim C5. -/
theorem c5_recipient_sets (s : AcceptorState) (r : RMId) (o : OutcomeRef)
    (h : s.outcomeOnDisk = some o) :
    ((aalcStart s).pendingTLC = pendingTLCOf s
      ∧ (aalcStart s).tgcRecipients = tgcRecipientsOf s)
    ∧ (r ∈ twoBRecipientsOf s
        ↔ ∃ al ∈ s.allocs, al.rmId = r ∧ (s.sendToAllOnDisk = true ∨ al.active ≠ 0))
    ∧ (r ∈ pendingTLCOf s ↔ r ∈ twoBRecipientsOf s ∧ r ∉ s.tlcsReceived)
    ∧ (r ∈ tgcRecipientsOf s
        ↔ ∃ al ∈ s.allocs, al.rmId = r ∧ (o.val.isCommit = true ∨ al.active ≠ 0))
    ∧ (∀ x ∈ pendingTLCOf s, x ∈ twoBRecipientsOf s)
    ∧ (∀ x ∈ twoBRecipientsOf s, x ∈ s.allocs.map Alloc.rmId) := by
  refine ⟨⟨aalcStart_pendingTLC s, aalcStart_tgcRecipients s⟩, ?_, ?_, ?_, ?_, ?_⟩
  · constructor
    · intro hx
      rcases List.mem_map.mp hx with ⟨al, hal, hrm⟩
      rcases List.mem_filter.mp hal with ⟨hmem, hcond⟩
      refine ⟨al, hmem, hrm, ?_⟩
      simpa using hcond
    · rintro ⟨al, hmem, hrm, hcond⟩
      refine List.mem_map.mpr ⟨al, List.mem_filter.mpr ⟨hmem, ?_⟩, hrm⟩
      simpa using hcond
  · unfold pendingTLCOf
    simp [List.mem_filter]
  · constructor
    · intro hx
      rcases List.mem_map.mp hx with ⟨al, hal, hrm⟩
      rcases List.mem_filter.mp hal with ⟨hmem, hcond⟩
      refine ⟨al, hmem, hrm, ?_⟩
      rw [h] at hcond
      simpa [isAbortO, Outcome.not_isAbort] using hcond
    · rintro ⟨al, hmem, hrm, hcond⟩
      refine List.mem_map.mpr ⟨al, List.mem_filter.mpr ⟨hmem, ?_⟩, hrm⟩
      rw [h]
      simpa [isAbortO, Outcome.not_isAbort] using hcond
  · intro x hx
    exact (List.mem_filter.mp hx).1
  · intro x hx
    rcases List.mem_map.mp hx with ⟨al, hal, hrm⟩
    exact List.mem_map.mpr ⟨al, (List.mem_filter.mp hal).1, hrm⟩

end GServer

namespace GServer

def c5state : AcceptorState := acceptorFromData [⟨1, 7⟩, ⟨2, 0⟩] 0 (.abort .resubmit) false

/-- Claim C5 witness. -/
theorem c5_recipient_sets_witness :
    ((aalcStart c5state).pendingTLC = pendingTLCOf c5state
      ∧ (aalcStart c5state).tgcRecipients = tgcRecipientsOf c5state)
    ∧ (1 ∈ twoBRecipientsOf c5state
        ↔ ∃ al ∈ c5state.allocs, al.rmId = 1 ∧ (c5state.sendToAllOnDisk = true ∨ al.active ≠ 0))
    ∧ (1 ∈ pendingTLCOf c5state ↔ 1 ∈ twoBRecipientsOf c5state ∧ 1 ∉ c5state.tlcsReceived)
    ∧ (1 ∈ tgcRecipientsOf c5state
        ↔ ∃ al ∈ c5state.allocs, al.rmId = 1
            ∧ ((Outcome.abort .resubmit).isCommit = true ∨ al.active ≠ 0))
    ∧ (∀ x ∈ pendingTLCOf c5state, x ∈ twoBRecipientsOf c5state)
    ∧ (∀ x ∈ twoBRecipientsOf c5state, x ∈ c5state.allocs.map Alloc.rmId) :=
  c5_recipient_sets c5state 1 ⟨0, .abort .resubmit⟩ (by decide)

theorem astep_sendToAll_mono (s : AcceptorState) (e : AEvent)
    (h : s.sendToAll = true) : (astep s e).sendToAll = true := by
  cases e with
  | ballotAccepted o? =>
      cases o? with
      | none => exact h
      | some o =>
          simp only [astep]
          split
          · exact h
          · simp [awtdStart, h]
  | writeDone r sta =>
      simp only [astep]
      split
      · rw [aalcStart_sendToAll]; exact h
      · exact h
  | tlcReceived sender =>
      simp only [astep]
      split
      · rw [maybeDelete_sendToAll]; exact h
      · exact h
  | tscReceivedEvt =>
      simp only [astep]
      split
      · exact h
      · rw [maybeDelete_sendToAll]; exact h
  | deletionDone =>
      simp only [astep]
      split <;> exact h

theorem runA_sendToAll_mono (evs : List AEvent) (s : AcceptorState)
    (h : s.sendToAll = true) : (runA s evs).sendToAll = true := by
  induction evs generalizing s with
  | nil => exact h
  | cons e rest ih => exact ih _ (astep_sendToAll_mono s e h)

/-- Claim C10. -/
theorem c10_sendToAll_sticky (s : AcceptorState) (evs : List AEvent) :
    ((awtdStart s).sendToAll = (s.sendToAll || isCommitO s.outcome))
    ∧ (s.sendToAll = true → (runA s evs).sendToAll = true)
    ∧ (s.sendToAllOnDisk = true → twoBRecipientsOf s = s.allocs.map Alloc.rmId) := by
  refine ⟨rfl, runA_sendToAll_mono evs s, ?_⟩
  intro hsd
  unfold twoBRecipientsOf
  rw [hsd]
  simp

def c10state : AcceptorState := acceptorFromData [⟨1, 0⟩, ⟨2, 3⟩] 0 .commit true

/-- Claim C10 witness. -/
theorem c10_sendToAll_sticky_witness :
    ((awtdStart c10state).sendToAll = (c10state.sendToAll || isCommitO c10state.outcome))
    ∧ (runA c10state [.ballotAccepted (some (.abort .resubmit))]).sendToAll = true
    ∧ twoBRecipientsOf c10state = c10state.allocs.map Alloc.rmId :=
  ⟨(c10_sendToAll_sticky c10state []).1,
   (c10_sendToAll_sticky c10state [.ballotAccepted (some (.abort .resubmit))]).2.1 (by decide),
   (c10_sendToAll_sticky c10state []).2.2 (by decide)⟩

end GServer

namespace GServer

/-! ## SimpleTxnSubmitter: blank-topology buffering (`SubmitClientTransaction`,
`TopologyChange`) -/

/-- Topologies are compared only against the blank sentinel here, so we
model a topology by an opaque tag with `0` as `server.BlankTopology`. -/
abbrev Topology := Nat

def blankTopology : Topology := 0

abbrev ClientTxn := Nat

abbrev ServerTxn := Nat

/-- The parts of `SimpleTxnSubmitter` state that buffering touches: the
current topology, the buffered submission closures (each closure re-runs
`SubmitClientTransaction` on its client transaction, so we record the
client transactions), and the dispatch log (`SubmitTransaction`
registrations, in order). -/
structure SubmitterBufState where
  topology : Topology
  bufferedSubmissions : List ClientTxn
  dispatched : List ServerTxn
deriving DecidableEq, Repr

/-- `SubmitClientTransaction`: with a blank topology, append the call to
`bufferedSubmissions` and return `nil` (success); otherwise translate via
`clientToServerTxn` (abstracted as `tr`, evaluated under the current
topology — its internals live in the consistent-hash collaborator) and
either return the translation error or dispatch via `SubmitTransaction`. -/
def submitClientTransaction (tr : Topology → ClientTxn → Option ServerTxn)
    (s : SubmitterBufState) (c : ClientTxn) : SubmitterBufState × Bool :=
  if s.topology = blankTopology then
    ({ s with bufferedSubmissions := s.bufferedSubmissions ++ [c] }, true)
  else
    match tr s.topology c with
    | none => (s, false)
    | some t => ({ s with dispatched := s.dispatched ++ [t] }, true)

/-- `TopologyChange` (topology half, with a non-nil topology argument):
install the topology, and if it is not blank and buffered submissions
exist, clear the buffer and replay the buffered calls in order. -/
def topologyChange (tr : Topology → ClientTxn → Option ServerTxn)
    (s : SubmitterBufState) (topology : Topology) : SubmitterBufState :=
  if topology ≠ blankTopology ∧ s.bufferedSubmissions ≠ [] then
    s.bufferedSubmissions.foldl (fun st c => (submitClientTransaction tr st c).1)
      { s with topology := topology, bufferedSubmissions := [] }
  else { s with topology := topology }

theorem submitClientTransaction_nonblank (tr : Topology → ClientTxn → Option ServerTxn)
    (st : SubmitterBufState) (c : ClientTxn) (h : st.topology ≠ blankTopology) :
    (submitClientTransaction tr st c).1
      = { st with dispatched := st.dispatched ++ (tr st.topology c).toList } := by
  unfold submitClientTransaction
  rw [if_neg h]
  cases tr st.topology c <;> simp

theorem replay_foldl (tr : Topology → ClientTxn → Option ServerTxn)
    (l : List ClientTxn) (st : SubmitterBufState) (h : st.topology ≠ blankTopology) :
    (l.foldl (fun st c => (submitClientTransaction tr st c).1) st).dispatched
        = st.dispatched ++ l.filterMap (tr st.topology)
    ∧ (l.foldl (fun st c => (submitClientTransaction tr st c).1) st).topology = st.topology
    ∧ (l.foldl (fun st c => (submitClientTransaction tr st c).1) st).bufferedSubmissions
        = st.bufferedSubmissions := by
  induction l generalizing st with
  | nil => simp
  | cons c rest ih =>
      have hstep := submitClientTransaction_nonblank tr st c h
      have hih := ih { st with dispatched := st.dispatched ++ (tr st.topology c).toList } h
      simp only [List.foldl_cons, hstep]
      refine ⟨?_, hih.2.1, hih.2.2⟩
      rw [hih.1]
      cases htr : tr st.topology c <;> simp [htr]

/-- Claim C6: with the blank-sentinel topology, `SubmitClientTransaction`
appends the call to the buffered list and returns success, translating
and dispatching nothing; a later `TopologyChange` installing a non-blank
topology replays every buffered submission in original submission
order. -/
theorem c6_blank_buffering (tr : Topology → ClientTxn → Option ServerTxn)
    (s : SubmitterBufState) (c : ClientTxn) (tp : Topology)
    (hb : s.topology = blankTopology) (hnb : tp ≠ blankTopology) :
    submitClientTransaction tr s c
      = ({ s with bufferedSubmissions := s.bufferedSubmissions ++ [c] }, true)
    ∧ (topologyChange tr (submitClientTransaction tr s c).1 tp).dispatched
        = s.dispatched ++ (s.bufferedSubmissions ++ [c]).filterMap (tr tp)
    ∧ (topologyChange tr (submitClientTransaction tr s c).1 tp).bufferedSubmissions = [] := by
  have h1 : submitClientTransaction tr s c
      = ({ s with bufferedSubmissions := s.bufferedSubmissions ++ [c] }, true) := by
    unfold submitClientTransaction
    rw [if_pos hb]
  refine ⟨h1, ?_, ?_⟩ <;>
    · rw [h1]
      unfold topologyChange
      rw [if_pos ⟨hnb, by simp⟩]
      have := replay_foldl tr (s.bufferedSubmissions ++ [c])
        { s with topology := tp, bufferedSubmissions := [],
                 dispatched := s.dispatched } hnb
      simp only at this
      first
        | · rw [this.1]
        | · rw [this.2.2]

end GServer

namespace GServer

def c6tr : Topology → ClientTxn → Option ServerTxn :=
  fun tp c => if tp = 0 then none else some (c * 10 + tp)

def c6s : SubmitterBufState := { topology := blankTopology, bufferedSubmissions := [4], dispatched := [] }

/-- Claim C6 witness: one already-buffered call plus a fresh blank-topology
submission, then a topology change to the non-blank topology 2. -/
theorem c6_blank_buffering_witness :
    submitClientTransaction c6tr c6s 7
      = ({ c6s with bufferedSubmissions := c6s.bufferedSubmissions ++ [7] }, true)
    ∧ (topologyChange c6tr (submitClientTransaction c6tr c6s 7).1 2).dispatched
        = c6s.dispatched ++ (c6s.bufferedSubmissions ++ [7]).filterMap (c6tr 2)
    ∧ (topologyChange c6tr (submitClientTransaction c6tr c6s 7).1 2).bufferedSubmissions = [] :=
  c6_blank_buffering c6tr c6s 7 2 (by decide) (by decide)

/-! ## clientToServerTxn allocation building (`setAllocations`) -/

/-- One entry of the server transaction's Allocations list as written by
`setAllocations`: the replica, the 16-bit action-index list, and the
`Active` field. -/
structure Allocation where
  rmId : RMId
  actionIndices : List Nat
  active : Nat
deriving DecidableEq, Repr

/-- `sort.Ints`: sort a slice of ints ascending (modelled by insertion
sort, which computes the same ascending rearrangement). -/
def sortInts (l : List Nat) : List Nat := List.insertionSort (· ≤ ·) l

/-- `setAllocations`: writes one allocation per replica of `rmIds`, in
order, starting at the supplied offset of the pre-sized list (modelled by
returning the consecutive block): the replica's collected action indices
are sorted ascending in place, then written as a `UInt16List`
(`uint16(v)`, i.e. mod 2^16); `Active` is the boot count of the
submitter's connection to the replica for actives, `0` for passives. -/
def setAllocations (boot : RMId → Nat) (indices : RMId → List Nat) (active : Bool) :
    List RMId → List Allocation
  | [] => []
  | rmId :: rest =>
      { rmId := rmId
        actionIndices := (sortInts (indices rmId)).map (· % 65536)
        active := if active then boot rmId else 0 }
        :: setAllocations boot indices active rest

/-- The Allocations list of `clientToServerTxn`: a list of length
`len(activeRMs) + len(passiveRMs)` filled by `setAllocations` with the
actives (as active, from offset 0) and then the passives (as passive,
from offset `len(activeRMs)`). -/
def txnAllocations (boot : RMId → Nat) (indices : RMId → List Nat)
    (activeRMs passiveRMs : List RMId) : List Allocation :=
  setAllocations boot indices true activeRMs ++ setAllocations boot indices false passiveRMs

theorem setAllocations_eq_map (boot : RMId → Nat) (indices : RMId → List Nat)
    (active : Bool) (rmIds : List RMId) :
    setAllocations boot indices active rmIds
      = rmIds.map (fun r =>
          { rmId := r
            actionIndices := (sortInts (indices r)).map (· % 65536)
            active := if active then boot r else 0 }) := by
  induction rmIds with
  | nil => rfl
  | cons r rest ih => simp [setAllocations, ih]

theorem sortInts_sorted (l : List Nat) : List.Sorted (· ≤ ·) (sortInts l) :=
  List.sorted_insertionSort (· ≤ ·) l

theorem sortInts_perm (l : List Nat) : (sortInts l).Perm l :=
  List.perm_insertionSort (· ≤ ·) l

/-- Claim C7: the Allocations list has all active replicas first (carrying
the submitter's last-observed boot count) followed by all passive
replicas (carrying 0); every allocation's action-index list is the
ascending sort of that replica's collected indices, written as 16-bit
values — hence genuinely ascending whenever the indices fit in 16 bits. -/
theorem c7_allocations (boot : RMId → Nat) (indices : RMId → List Nat)
    (activeRMs passiveRMs : List RMId) :
    txnAllocations boot indices activeRMs passiveRMs
      = activeRMs.map (fun r =>
          { rmId := r, actionIndices := (sortInts (indices r)).map (· % 65536),
            active := boot r })
        ++ passiveRMs.map (fun r =>
          { rmId := r, actionIndices := (sortInts (indices r)).map (· % 65536),
            active := 0 })
    ∧ (∀ r : RMId, List.Sorted (· ≤ ·) (sortInts (indices r))
        ∧ (sortInts (indices r)).Perm (indices r))
    ∧ (∀ al ∈ txnAllocations boot indices activeRMs passiveRMs,
        al.actionIndices = (sortInts (indices al.rmId)).map (· % 65536))
    ∧ (∀ al ∈ setAllocations boot indices true activeRMs, al.active = boot al.rmId)
    ∧ (∀ al ∈ setAllocations boot indices false passiveRMs, al.active = 0)
    ∧ (∀ r : RMId, (∀ i ∈ indices r, i < 65536) →
        List.Sorted (· ≤ ·) ((sortInts (indices r)).map (· % 65536))) := by
  refine ⟨?_, fun r => ⟨sortInts_sorted _, sortInts_perm _⟩, ?_, ?_, ?_, ?_⟩
  · unfold txnAllocations
    rw [setAllocations_eq_map, setAllocations_eq_map]
    simp
  · intro al hal
    unfold txnAllocations at hal
    rw [setAllocations_eq_map, setAllocations_eq_map] at hal
    rcases List.mem_append.mp hal with hmem | hmem <;>
      · rcases List.mem_map.mp hmem with ⟨r, _, heq⟩
        rw [← heq]
  · intro al hal
    rw [setAllocations_eq_map] at hal
    rcases List.mem_map.mp hal with ⟨r, _, heq⟩
    rw [← heq]
    simp
  · intro al hal
    rw [setAllocations_eq_map] at hal
    rcases List.mem_map.mp hal with ⟨r, _, heq⟩
    rw [← heq]
    simp
  · intro r hlt
    have hall : ∀ i ∈ sortInts (indices r), i < 65536 := by
      intro i hi
      exact hlt i ((sortInts_perm (indices r)).mem_iff.mp hi)
    have hmapid : (sortInts (indices r)).map (· % 65536)
        = (sortInts (indices r)).map id := by
      apply List.map_congr_left
      intro i hi
      exact Nat.mod_eq_of_lt (hall i hi)
    rw [hmapid, List.map_id]
    exact sortInts_sorted _

end GServer

namespace GServer

def c7boot : RMId → Nat := fun r => r + 10

def c7indices : RMId → List Nat := fun r => if r = 1 then [2, 0] else [1]

/-- Claim C7 witness: one active replica (boot count 11, indices [2,0])
and one passive replica (indices [1]). -/
theorem c7_allocations_witness :
    txnAllocations c7boot c7indices [1] [2]
      = [1].map (fun r =>
          { rmId := r, actionIndices := (sortInts (c7indices r)).map (· % 65536),
            active := c7boot r })
        ++ [2].map (fun r =>
          { rmId := r, actionIndices := (sortInts (c7indices r)).map (· % 65536),
            active := 0 })
    ∧ List.Sorted (· ≤ ·) ((sortInts (c7indices 1)).map (· % 65536)) :=
  ⟨(c7_allocations c7boot c7indices [1] [2]).1,
   (c7_allocations c7boot c7indices [1] [2]).2.2.2.2.2 1 (by decide)⟩

end GServer

namespace GServer

/-! ## Submitter outcome accumulation (`SubmitTransaction`,
`SubmissionOutcomeReceived`) -/

/-- Transaction identifier (`common.TxnId`), opaque here. -/
abbrev TxnId := Nat

/-- Modelled from the spec: `paxos.OutcomeAccumulator` (its source file is
not part of this repository) — "wait for outcomes from the acceptors
named in the transaction; when FInc acceptors agree on an outcome"
deliver it.  `votes` records the latest outcome voted by each acceptor. -/
structure OutcomeAccumulator where
  fInc : Nat
  acceptors : List RMId
  votes : List (RMId × Outcome)
deriving DecidableEq, Repr

def newOutcomeAccumulator (fInc : Nat) (acceptors : List RMId) : OutcomeAccumulator :=
  { fInc := fInc, acceptors := acceptors, votes := [] }

/-- Modelled from the spec: `OutcomeAccumulator.BallotOutcomeReceived`
records the sender's vote (senders outside the transaction's acceptors
are ignored) and returns the outcome once at least `FInc` acceptors agree
on it. -/
def ballotOutcomeReceived (acc : OutcomeAccumulator) (sender : RMId) (o : Outcome) :
    OutcomeAccumulator × Option Outcome :=
  if sender ∈ acc.acceptors then
    if acc.fInc ≤ (((sender, o) :: acc.votes.filter (fun p => p.1 ≠ sender)).filter
        (fun p => p.2 = o)).length then
      ({ acc with votes := (sender, o) :: acc.votes.filter (fun p => p.1 ≠ sender) }, some o)
    else
      ({ acc with votes := (sender, o) :: acc.votes.filter (fun p => p.1 ≠ sender) }, none)
  else (acc, none)

/-- One live registration of the submitter: the accumulator installed by
`SubmitTransaction` and the acceptor set derived from the transaction,
both captured by the consumer closure. -/
structure Registration where
  acc : OutcomeAccumulator
  acceptors : List RMId
deriving DecidableEq, Repr

/-- The parts of `SimpleTxnSubmitter` state that outcome processing
touches: `outcomeConsumers` (one registration per live TxnId),
`onShutdown` (the shutdown hooks, keyed here by the registration's
TxnId), and the repeating senders registered with the connection
manager. -/
structure SubmitterState where
  outcomeConsumers : List (TxnId × Registration)
  onShutdown : List TxnId
  senders : List TxnId
deriving DecidableEq, Repr

/-- Observable actions of the submitter's outcome processing. -/
inductive SubEffect
  | continuationInvoked (txn : TxnId) (o : Outcome)
  | txnSubmissionCompleteSent (txn : TxnId) (dst : List RMId)
  | senderDeregistered (txn : TxnId)
deriving DecidableEq, Repr

def lookupConsumer (s : SubmitterState) (txn : TxnId) : Option Registration :=
  (s.outcomeConsumers.find? (fun p => p.1 = txn)).map Prod.snd

/-- `SubmitTransaction` (outcome-tracking part): register the repeating
sender, the shutdown hook and the outcome consumer for the transaction
(map assignment overwrites any stale registration for the same TxnId). -/
def submitTransaction (s : SubmitterState) (txn : TxnId) (fInc : Nat)
    (acceptors : List RMId) : SubmitterState :=
  { outcomeConsumers :=
      (txn, { acc := newOutcomeAccumulator fInc acceptors, acceptors := acceptors })
        :: s.outcomeConsumers.filter (fun p => p.1 ≠ txn)
    onShutdown := txn :: s.onShutdown.filter (· ≠ txn)
    senders := txn :: s.senders.filter (· ≠ txn) }

/-- `SubmissionOutcomeReceived`: route the outcome to the registered
consumer when there is one — the consumer feeds the accumulator and, once
it yields an agreed outcome, removes the shutdown hook and runs
`shutdownFun(false)` (delete the consumer, deregister the repeating
sender, send TxnSubmissionComplete to the transaction's acceptors) and
finally invokes the continuation.  With no consumer registered, reply to
the sender with a one-shot TxnSubmissionComplete. -/
def submissionOutcomeReceived (s : SubmitterState) (sender : RMId) (txn : TxnId)
    (o : Outcome) : SubmitterState × List SubEffect :=
  match lookupConsumer s txn with
  | some reg =>
      match (ballotOutcomeReceived reg.acc sender o).2 with
      | some o2 =>
          ({ outcomeConsumers := s.outcomeConsumers.filter (fun p => p.1 ≠ txn)
             onShutdown := s.onShutdown.filter (· ≠ txn)
             senders := s.senders.filter (· ≠ txn) },
           [.senderDeregistered txn, .txnSubmissionCompleteSent txn reg.acceptors,
            .continuationInvoked txn o2])
      | none =>
          ({ s with outcomeConsumers :=
              s.outcomeConsumers.map (fun p =>
                if p.1 = txn
                then (txn, { reg with acc := (ballotOutcomeReceived reg.acc sender o).1 })
                else p) },
           [])
  | none =>
      (s, [.txnSubmissionCompleteSent txn [sender]])

/-- Claim C8: when the registered accumulator reaches FInc agreement on
an outcome, the submitter delivers that outcome to the continuation
exactly once (the effect list is exactly sender-deregistration, a
TxnSubmissionComplete to the transaction's acceptors, and one
continuation invocation) and removes the registration, the shutdown hook
and the sender; a redelivered outcome for a TxnId with no registration
only elicits a TxnSubmissionComplete reply to the sender and invokes no
continuation. -/
theorem c8_outcome_delivery (s : SubmitterState) (sender : RMId) (txn : TxnId)
    (o : Outcome) :
    (∀ reg o2, lookupConsumer s txn = some reg
      → (ballotOutcomeReceived reg.acc sender o).2 = some o2
      → submissionOutcomeReceived s sender txn o
          = ({ outcomeConsumers := s.outcomeConsumers.filter (fun p => p.1 ≠ txn)
               onShutdown := s.onShutdown.filter (· ≠ txn)
               senders := s.senders.filter (· ≠ txn) },
             [.senderDeregistered txn, .txnSubmissionCompleteSent txn reg.acceptors,
              .continuationInvoked txn o2])
        ∧ lookupConsumer (submissionOutcomeReceived s sender txn o).1 txn = none
        ∧ txn ∉ (submissionOutcomeReceived s sender txn o).1.onShutdown
        ∧ txn ∉ (submissionOutcomeReceived s sender txn o).1.senders
        ∧ ((submissionOutcomeReceived s sender txn o).2.filter
            (fun e => match e with | .continuationInvoked _ _ => true | _ => false))
            = [.continuationInvoked txn o2])
    ∧ (lookupConsumer s txn = none →
        submissionOutcomeReceived s sender txn o
          = (s, [.txnSubmissionCompleteSent txn [sender]])) := by
  constructor
  · intro reg o2 hlk hb
    have hs : submissionOutcomeReceived s sender txn o
        = ({ outcomeConsumers := s.outcomeConsumers.filter (fun p => p.1 ≠ txn)
             onShutdown := s.onShutdown.filter (· ≠ txn)
             senders := s.senders.filter (· ≠ txn) },
           [.senderDeregistered txn, .txnSubmissionCompleteSent txn reg.acceptors,
            .continuationInvoked txn o2]) := by
      simp only [submissionOutcomeReceived, hlk, hb]
    refine ⟨hs, ?_, ?_, ?_, ?_⟩
    · rw [hs]
      unfold lookupConsumer
      rw [List.find?_eq_none.mpr]
      · rfl
      · intro p hp
        have := (List.mem_filter.mp hp).2
        simpa using this
    · rw [hs]
      intro hmem
      have := (List.mem_filter.mp hmem).2
      simp at this
    · rw [hs]
      intro hmem
      have := (List.mem_filter.mp hmem).2
      simp at this
    · rw [hs]
      rfl
  · intro hnone
    simp only [submissionOutcomeReceived, hnone]

end GServer

namespace GServer

def c8state : SubmitterState := submitTransaction ⟨[], [], []⟩ 42 1 [5]

def c8reg : Registration := { acc := newOutcomeAccumulator 1 [5], acceptors := [5] }

/-- Claim C8 witness: a single registered transaction with FInc 1 and
acceptor 5; the first delivered outcome completes it, the second elicits
only the TxnSubmissionComplete reply. -/
theorem c8_outcome_delivery_witness :
    (submissionOutcomeReceived c8state 5 42 .commit
        = ({ outcomeConsumers := c8state.outcomeConsumers.filter (fun p => p.1 ≠ 42)
             onShutdown := c8state.onShutdown.filter (· ≠ 42)
             senders := c8state.senders.filter (· ≠ 42) },
           [.senderDeregistered 42, .txnSubmissionCompleteSent 42 c8reg.acceptors,
            .continuationInvoked 42 .commit])
      ∧ lookupConsumer (submissionOutcomeReceived c8state 5 42 .commit).1 42 = none
      ∧ 42 ∉ (submissionOutcomeReceived c8state 5 42 .commit).1.onShutdown
      ∧ 42 ∉ (submissionOutcomeReceived c8state 5 42 .commit).1.senders
      ∧ ((submissionOutcomeReceived c8state 5 42 .commit).2.filter
          (fun e => match e with | .continuationInvoked _ _ => true | _ => false))
          = [.continuationInvoked 42 .commit])
    ∧ (submissionOutcomeReceived (submissionOutcomeReceived c8state 5 42 .commit).1 5 42 .commit
        = ((submissionOutcomeReceived c8state 5 42 .commit).1,
           [.txnSubmissionCompleteSent 42 [5]])) :=
  ⟨(c8_outcome_delivery c8state 5 42 .commit).1 c8reg .commit (by decide) (by decide),
   (c8_outcome_delivery (submissionOutcomeReceived c8state 5 42 .commit).1 5 42 .commit).2
     (by decide)⟩

/-! ## Executor and Dispatcher (`Executor.loop`, `Executor.Enqueue`) -/

/-- Work items are opaque tags standing for the enqueued closures. -/
abbrev Work := Nat

/-- `executorQuery`: the shutdown sentinel (`shutdownQuery`) or an
`applyQuery` closure. -/
inductive ExecutorQuery
  | shutdownq
  | applyq (w : Work)
deriving DecidableEq, Repr

def ExecutorQuery.isShutdown : ExecutorQuery → Bool
  | .shutdownq => true
  | .applyq _ => false

def ExecutorQuery.getWork : ExecutorQuery → Option Work
  | .shutdownq => none
  | .applyq w => some w

/-- `Executor.loop`: the single worker goroutine consumes queued queries
one at a time, in queue order: an `applyQuery` is run (`query()`), a
`shutdownQuery` terminates the loop.  The result lists the works actually
run, in execution order — consecutive in one sequential loop, so no two
works overlap. -/
def loopRun : List ExecutorQuery → List Work
  | [] => []
  | .shutdownq :: _ => []
  | .applyq w :: rest => w :: loopRun rest

/-- Modelled from the spec: the chancell queue between `Enqueue` and the
worker is an "unbounded, FIFO, single-consumer work queue" (the
cell-swap mechanics live in the external chancell package).  A successful
`send` appends to the pending queue; sends fail once the shutdown
sentinel has been submitted. -/
structure ExecQueue where
  pending : List ExecutorQuery
  shutdownSubmitted : Bool
deriving DecidableEq, Repr

/-- `Executor.send` / `Executor.Enqueue` seen through the queue model:
append the query and report acceptance. -/
def enqueueQ (q : ExecQueue) (m : ExecutorQuery) : ExecQueue × Bool :=
  if q.shutdownSubmitted then (q, false)
  else ({ pending := q.pending ++ [m], shutdownSubmitted := m.isShutdown }, true)

/-- Claim C9: works are executed in exactly the order of their successful
enqueues — the FIFO queue preserves enqueue order, and the single
sequential worker of `Executor.loop` runs the applys one at a time in
queue order, stopping at the shutdown sentinel. -/
theorem c9_executor_fifo (ws : List Work) (msgs : List ExecutorQuery) :
    loopRun (ws.map ExecutorQuery.applyq) = ws
    ∧ loopRun msgs
        = (msgs.takeWhile (fun m => !m.isShutdown)).filterMap ExecutorQuery.getWork
    ∧ (∀ q : ExecQueue, q.shutdownSubmitted = false → ∀ w : Work,
        enqueueQ q (.applyq w)
          = ({ pending := q.pending ++ [.applyq w], shutdownSubmitted := false }, true)) := by
  refine ⟨?_, ?_, ?_⟩
  · induction ws with
    | nil => rfl
    | cons w rest ih => simp [loopRun, ih]
  · induction msgs with
    | nil => rfl
    | cons m rest ih =>
        cases m with
        | shutdownq => rfl
        | applyq w =>
            simp [loopRun, ih, List.takeWhile, ExecutorQuery.isShutdown,
              ExecutorQuery.getWork]
  · intro q hq w
    unfold enqueueQ
    rw [if_neg (by simp [hq])]
    rfl

/-- Claim C9 witness. -/
theorem c9_executor_fifo_witness :
    loopRun ([3, 1, 2].map ExecutorQuery.applyq) = [3, 1, 2]
    ∧ loopRun [.applyq 3, .applyq 1, .shutdownq, .applyq 2]
        = (([.applyq 3, .applyq 1, .shutdownq, .applyq 2] :
              List ExecutorQuery).takeWhile (fun m => !m.isShutdown)).filterMap
            ExecutorQuery.getWork
    ∧ enqueueQ { pending := [], shutdownSubmitted := false } (.applyq 9)
        = ({ pending := [.applyq 9], shutdownSubmitted := false }, true) :=
  ⟨(c9_executor_fifo [3, 1, 2] []).1,
   (c9_executor_fifo [] [.applyq 3, .applyq 1, .shutdownq, .applyq 2]).2.1,
   (c9_executor_fifo [] []).2.2 { pending := [], shutdownSubmitted := false } rfl 9⟩

end GServer
